import Mathlib

/-!
A shallow embedding of `pantalaimon/panctl.py` (the `panctl` interactive
control shell) and proofs about its command grammar, completion engine,
presentation formatters and REPL dispatch loop.

Conventions used throughout:
* Python strings are Lean `String`s; `ord` is `Char.toNat`.
* Python generators that only `yield` values are modelled by the list of
  values they yield; a Python function that returns the empty string `""`
  instead of a generator is modelled as yielding the empty list.
* Python's unbounded integers are `Nat`; masking with `0xFFFFFFFF` becomes
  `% 2 ^ 32` at the same place it happens in the source.
* Remote D-Bus state (the daemon's users and devices) is a parameter
  (`DaemonEnv`): each completion query reads from it, never caches.
-/

namespace Panctl

/-! ### String helpers

`py_split` models Python's `str.split()` (no separator): split on runs of
whitespace and drop empty pieces.  `split_sp` models `str.split(" ")`:
split at every single space, keeping empty pieces (so `"".split(" ")`
is `[""]`).  `str_in` models Python's substring test `needle in haystack`. -/

def is_ws (c : Char) : Bool :=
  c == ' ' || c == '\t' || c == '\n' || c == '\r' || c == '\x0b' || c == '\x0c'

def py_split_chars : List Char → List Char → List String
  | [], acc => if acc.isEmpty then [] else [String.mk acc.reverse]
  | c :: cs, acc =>
    if is_ws c then
      if acc.isEmpty then py_split_chars cs []
      else String.mk acc.reverse :: py_split_chars cs []
    else py_split_chars cs (c :: acc)

def py_split (s : String) : List String :=
  py_split_chars s.toList []

def split_sp_chars : List Char → List Char → List String
  | [], acc => [String.mk acc.reverse]
  | c :: cs, acc =>
    if c == ' ' then String.mk acc.reverse :: split_sp_chars cs []
    else split_sp_chars cs (c :: acc)

def split_sp (s : String) : List String :=
  split_sp_chars s.toList []

def str_in (needle haystack : String) : Bool :=
  (List.range (haystack.toList.length + 1)).any
    (fun i => needle.toList.isPrefixOf (haystack.toList.drop i))

/-! ### Command grammar (`PanctlParser`, panctl.py lines 27-90)

`parser_registrations` lists, in source order, every `add_parser` call of
`PanctlParser.__init__` together with the positional arguments added to
that sub-parser.  Note that the source registers the sub-parser held in
the variable `unverify` under the name `"verify-device"` (line 74), so the
name `"verify-device"` is registered twice and `"unverify-device"` is
never registered.  Registration is a dict assignment in argparse, so the
last registration of a name wins; `find_subparser` looks the name up in
the reversed registration list. -/

def parser_registrations : List (String × List String) :=
  [ ("list-users", []),
    ("list-devices", ["pan_user", "user_id"]),
    ("start-verification", ["pan_user", "user_id", "device_id"]),
    ("accept-verification", ["pan_user", "user_id", "device_id"]),
    ("confirm-verification", ["pan_user", "user_id", "device_id"]),
    ("verify-device", ["pan_user", "user_id", "device_id"]),
    ("verify-device", ["pan_user", "user_id", "device_id"]),
    ("import-keys", ["pan_user", "path", "passphrase"]),
    ("export-keys", ["pan_user", "path", "passphrase"]) ]

def find_subparser (name : String) : Option (List String) :=
  List.lookup name parser_registrations.reverse

/-- A successfully parsed input line: the chosen sub-command together with
its positional parameters bound, in declaration order, to the words of the
line (argparse's `Namespace`, restricted to the fields the program reads). -/
structure ParsedInvocation where
  subcommand : String
  bindings : List (String × String)
deriving DecidableEq

/-- Result of `PanctlParser.parse_args`.
* `ok`: a `ParsedInvocation`.
* `failure`: argparse called `error`, which (overridden, lines 35-41)
  prints `"Error: ... (see help)"` and raises `ParseError`.
* `helpExit`: argparse's default `-h`/`--help` action printed help and
  called `sys.exit(0)` (neither `exit` nor the help action is overridden),
  terminating the process.
* `noCommand`: an empty token list; subparsers are optional in Python 3,
  so the result is a namespace whose `subcommand` is `None`. -/
inductive ParseResult
  | ok (inv : ParsedInvocation)
  | failure
  | helpExit
  | noCommand
deriving DecidableEq

def is_help (w : String) : Bool :=
  w == "-h" || w == "--help"

/-- argparse treats a token beginning with `-` (its `prefix_chars`) as an
optional argument rather than a positional word. -/
def is_option_like (w : String) : Bool :=
  w.toList.headD 'x' == '-'

/-- Model of `PanctlParser.parse_args` (line 89-90) over the token list,
following CPython argparse semantics for the declared grammar: the first
token selects the sub-parser (unknown choice ⇒ `error` ⇒ `failure`);
`-h`/`--help` anywhere triggers the default help action, which exits the
process; any other `-`-prefixed token is an unrecognized optional (⇒
`failure`); the remaining plain words must bind 1:1, in order, to the
sub-parser's declared positionals, missing or surplus words being an
`error`.  (Tokens produced by `str.split()` are nonempty and contain no
whitespace; argparse corner cases such as a lone `--` separator or
negative-number-shaped tokens do not arise in the claims below, whose
hypotheses restrict argument words to non-option-like tokens.) -/
def parse_args : List String → ParseResult
  | [] => .noCommand
  | cmd :: rest =>
    if is_help cmd then .helpExit
    else if is_option_like cmd then .failure
    else
      match find_subparser cmd with
      | none => .failure
      | some params =>
        if rest.any is_help then .helpExit
        else if rest.any is_option_like then .failure
        else if rest.length = params.length then
          .ok ⟨cmd, params.zip rest⟩
        else .failure

/-! ### Remote state and the completion engine (`PanCompleter`, lines 93-232)

The daemon's remote state, reached over D-Bus, is modelled by `DaemonEnv`:
`ctl_list_users` is the control endpoint's `list_users()` (a list of
`(user, device)` pairs), `devices_list` is the devices endpoint's
`list(pan_user)` and `devices_list_user_devices` its
`list_user_devices(pan_user, user_id)`.  A `Device` record is a remote
dict; only the fields the program reads appear here. -/

structure DeviceRecord where
  user_id : String
  device_id : String
  fingerprint_key : String

structure DaemonEnv where
  ctl_list_users : List (String × String)
  devices_list : String → List DeviceRecord
  devices_list_user_devices : String → String → List DeviceRecord

/-- prompt_toolkit's `Completion(text, start_position)`: the suggestion and
the (negative) offset from the cursor that it replaces. -/
structure Completion where
  text : String
  start_position : Int
deriving DecidableEq

/-- `PanCompleter.filter_words` (lines 135-142): keep, in order, the words
containing `last_word` as a substring (Python's `last_word in word`). -/
def filter_words (words : List String) (last_word : String) : List String :=
  words.foldl (fun acc w => if str_in last_word w then acc ++ [w] else acc) []

/-- The `Completion(compl_word, -len(last_word))` objects yielded for a
filtered word list (the common tail of every `complete_*` generator). -/
def yield_completions (compl_words : List String) (last_word : String) :
    List Completion :=
  compl_words.map (fun w => ⟨w, -(last_word.length : Int)⟩)

/-- `PanCompleter.complete_commands` (lines 102-106). -/
def complete_commands (commands : List String) (last_word : String) :
    List Completion :=
  yield_completions (filter_words commands last_word) last_word

/-- The candidate pool of `complete_pan_users`: first components of the
control endpoint's `list_users()` rows (`[i[0] for i in users]`). -/
def pan_user_names (env : DaemonEnv) : List String :=
  env.ctl_list_users.map Prod.fst

/-- The candidate pool of `complete_users`: the `user_id` fields of
`devices.list(pan_user)`, deduplicated (`set(...)` in the source). -/
def device_owner_ids (env : DaemonEnv) (pan_user : String) : List String :=
  ((env.devices_list pan_user).map DeviceRecord.user_id).dedup

/-- The candidate pool of `complete_devices`: the `device_id` fields of
`devices.list_user_devices(pan_user, user_id)`. -/
def device_ids (env : DaemonEnv) (pan_user user_id : String) : List String :=
  (env.devices_list_user_devices pan_user user_id).map DeviceRecord.device_id

/-- `PanCompleter.complete_pan_users` (lines 144-151). -/
def complete_pan_users (env : DaemonEnv) (last_word : String) :
    List Completion :=
  yield_completions (filter_words (pan_user_names env) last_word) last_word

/-- `PanCompleter.complete_users` (lines 108-119): the `user_id` fields of
`devices.list(pan_user)`.  The source builds a Python `set` of them, whose
iteration order is unspecified; it is modelled canonically by
`List.dedup` — claims about this function are stated at the level of
membership, which is order-independent. -/
def complete_users (env : DaemonEnv) (last_word pan_user : String) :
    List Completion :=
  yield_completions
    (filter_words (device_owner_ids env pan_user) last_word) last_word

/-- `PanCompleter.complete_devices` (lines 121-133): the `device_id` fields
of `devices.list_user_devices(pan_user, user_id)`. -/
def complete_devices (env : DaemonEnv) (last_word pan_user user_id : String) :
    List Completion :=
  yield_completions
    (filter_words (device_ids env pan_user user_id) last_word) last_word

/-- `PanCompleter.complete_verification` (lines 153-164).  The `command`
argument is accepted and ignored, as in the source.  The fall-through
`return ""` yields no completions. -/
def complete_verification (env : DaemonEnv) (command last_word : String)
    (words : List String) : List Completion :=
  if words.length = 2 then complete_pan_users env last_word
  else if words.length = 3 then
    complete_users env last_word (words.getD 1 "")
  else if words.length = 4 then
    complete_devices env last_word (words.getD 1 "") (words.getD 2 "")
  else []

/-- `PanCompleter.complete_list_devices` (lines 184-191). -/
def complete_list_devices (env : DaemonEnv) (last_word : String)
    (words : List String) : List Completion :=
  if words.length = 2 then complete_pan_users env last_word
  else if words.length = 3 then
    complete_users env last_word (words.getD 1 "")
  else []

/-- Result of `PanCompleter.get_completions`: either locally produced
completions (with the empty-string fall-through modelled as no
completions), or delegation to the external `PathCompleter` collaborator
for the given partial word (`complete_key_file_cmds`, lines 176-180). -/
inductive CompletionResult
  | completions (cs : List Completion)
  | pathCompletions (last_word : String)
deriving DecidableEq

/-- `PanCompleter.complete_key_file_cmds` (lines 166-182). -/
def complete_key_file_cmds (env : DaemonEnv) (last_word : String)
    (words : List String) : CompletionResult :=
  if words.length = 2 then .completions (complete_pan_users env last_word)
  else if words.length = 3 then .pathCompletions last_word
  else .completions []

def verification_command_names : List String :=
  [ "start-verification",
    "accept-verification",
    "confirm-verification",
    "cancel-verification",
    "verify-device",
    "unverify-device" ]

def key_file_command_names : List String :=
  ["export-keys", "import-keys"]

structure PanCompleter where
  commands : List String
  env : DaemonEnv

/-- `PanCompleter.get_completions` (lines 193-232), after the buffer text
before the cursor has been split on `" "` into `words`.  `words` is the
output of `split_sp`, hence never empty. -/
def get_completions_words (c : PanCompleter) (words : List String) :
    CompletionResult :=
  let last_word := words.getLastD ""
  if words.length = 1 then
    .completions (complete_commands c.commands last_word)
  else
    let command := words.headD ""
    if command ∈ verification_command_names then
      .completions (complete_verification c.env command last_word words)
    else if command ∈ key_file_command_names then
      complete_key_file_cmds c.env last_word words
    else if command = "list-devices" then
      .completions (complete_list_devices c.env last_word words)
    else .completions []

/-- `PanCompleter.get_completions` on the raw buffer text before the
cursor (`document.text_before_cursor`), split with `str.split(" ")`. -/
def get_completions (c : PanCompleter) (text_before_cursor : String) :
    CompletionResult :=
  get_completions_words c (split_sp text_before_cursor)

/-! ### Presentation formatters (lines 235-263) -/

/-- `grouper(key, 4, " ")` (lines 235-239): chunks of 4 consecutive
characters, the last chunk padded with the fill character `' '`
(`itertools.zip_longest` over four copies of one iterator). -/
def grouper4 (fill : Char) : List Char → List (List Char)
  | [] => []
  | [a] => [[a, fill, fill, fill]]
  | [a, b] => [[a, b, fill, fill]]
  | [a, b, c] => [[a, b, c, fill]]
  | a :: b :: c :: d :: rest => [a, b, c, d] :: grouper4 fill rest

/-- `' '.join(''.join(g) for g in groups)`. -/
def joinSp : List (List Char) → List Char
  | [] => []
  | [g] => g
  | g :: rest => g ++ ' ' :: joinSp rest

/-- `partition_key` (lines 242-244). -/
def partition_key (key : String) : String :=
  String.mk (joinSp (grouper4 ' ' key.toList))

/-- The inner `djb2` of `get_color` (lines 248-252): starts at 5381, each
step is `hash * 33 + ord(x)` (Python's `(hash << 5) + hash` on unbounded
integers), masked to 32 bits only at the end. -/
def djb2 (s : String) : Nat :=
  (s.toList.foldl (fun h c => (h * 32 + h) + c.toNat) 5381) % 2 ^ 32

def colors : List String :=
  [ "ansiblue",
    "ansigreen",
    "ansired",
    "ansiyellow",
    "ansicyan",
    "ansimagenta" ]

/-- `get_color` (lines 247-263): `colors[djb2(string) % 5]`.  The index is
always `< 5 < 6`, so the out-of-range default is unreachable. -/
def get_color (s : String) : String :=
  colors.getD (djb2 s % 5) ""

/-- Modelled from the spec: the spec's wording "reduced modulo a fixed
palette of 6 named colors" — i.e. `colors[djb2(string) % 6]` — stated as a
second definition to compare with the source's `get_color`. -/
def get_color_spec (s : String) : String :=
  colors.getD (djb2 s % 6) ""

/-! ### The REPL loop (`PanCtl`, lines 266-472)

One iteration of `PanCtl.loop` on a prompt line is modelled by
`loop_step`: the remote calls it issues, the terminal output it produces
(output is abstracted to which message is printed, not its exact text),
and whether control returns to the prompt or the process terminates.  The
loop itself carries no mutable state between iterations. -/

def panctl_commands : List String :=
  [ "list-users",
    "list-devices",
    "export-keys",
    "import-keys",
    "verify-device",
    "unverify-device",
    "start-verification",
    "accept-verification",
    "confirm-verification" ]

/-- A call on the Remote Control Client (D-Bus proxy objects `ctl` and
`devices`). -/
inductive RpcCall
  | list_users
  | import_keys (pan_user path passphrase : String)
  | export_keys (pan_user path passphrase : String)
  | confirm_sas (pan_user user_id device_id : String)
  | list_user_devices (pan_user user_id : String)
deriving DecidableEq

/-- Terminal output produced during one loop iteration, by kind. -/
inductive OutMsg
  | parseError
  | helpText
  | usersListing
  | devicesListing
deriving DecidableEq

inductive NextState
  | prompt
  | exited (code : Int)
deriving DecidableEq

structure StepResult where
  rpc : List RpcCall
  output : List OutMsg
  next : NextState
deriving DecidableEq

/-- `args.<name>` on the parsed namespace. -/
def get_arg (inv : ParsedInvocation) (name : String) : String :=
  (List.lookup name inv.bindings).getD ""

/-- The dispatch chain of `PanCtl.loop` (lines 430-448), in source order.
`list-users` and `list-devices` print listings; `accept-verification` is
the literal `pass` branch; verbs with no branch (`start-verification`,
`verify-device`, a `None` subcommand) fall through silently. -/
def dispatch (inv : ParsedInvocation) : StepResult :=
  if inv.subcommand = "list-users" then
    { rpc := [.list_users], output := [.usersListing], next := .prompt }
  else if inv.subcommand = "export-keys" then
    { rpc := [.export_keys (get_arg inv "pan_user") (get_arg inv "path")
        (get_arg inv "passphrase")], output := [], next := .prompt }
  else if inv.subcommand = "import-keys" then
    { rpc := [.import_keys (get_arg inv "pan_user") (get_arg inv "path")
        (get_arg inv "passphrase")], output := [], next := .prompt }
  else if inv.subcommand = "accept-verification" then
    { rpc := [], output := [], next := .prompt }
  else if inv.subcommand = "list-devices" then
    { rpc := [.list_user_devices (get_arg inv "pan_user")
        (get_arg inv "user_id")], output := [.devicesListing],
      next := .prompt }
  else if inv.subcommand = "confirm-verification" then
    { rpc := [.confirm_sas (get_arg inv "pan_user") (get_arg inv "user_id")
        (get_arg inv "device_id")], output := [], next := .prompt }
  else { rpc := [], output := [], next := .prompt }

/-- One iteration of `PanCtl.loop` (lines 413-448) on the line returned by
the prompt: a falsy (empty) line is skipped; otherwise the line is split
on whitespace and parsed; `ParseError` was preceded by the error print and
the loop continues; the default help action terminates the process with
status 0; a parsed invocation is dispatched. -/
def loop_step (line : String) : StepResult :=
  if line = "" then { rpc := [], output := [], next := .prompt }
  else
    match parse_args (py_split line) with
    | .failure => { rpc := [], output := [.parseError], next := .prompt }
    | .helpExit => { rpc := [], output := [.helpText], next := .exited 0 }
    | .noCommand => { rpc := [], output := [], next := .prompt }
    | .ok inv => dispatch inv

/-! ### Process startup (`main`, lines 451-472) -/

structure MainResult where
  stdout : List String
  stderr : List String
  exit_code : Option Int
  prompt_shown : Bool
deriving DecidableEq

/-- `main` (lines 451-472) up to the point the prompt loop starts.
`bus_found = false` models `PanCtl()` raising `DBusException`: the handler
runs `print("Error, no pantalaimon bus found")` — Python's `print` writes
to standard output — and `sys.exit(-1)`, a nonzero exit status, before any
prompt is created.  `bus_found = true` proceeds into `panctl.loop()`,
which shows the prompt. -/
def main_startup (bus_found : Bool) : MainResult :=
  if bus_found then
    { stdout := [], stderr := [], exit_code := none, prompt_shown := true }
  else
    { stdout := ["Error, no pantalaimon bus found"], stderr := [],
      exit_code := some (-1), prompt_shown := false }

/-- A small concrete daemon state used to instantiate general theorems at
concrete inputs. -/
def sample_env : DaemonEnv :=
  { ctl_list_users := [("alice", "DEVA"), ("bob", "DEVB")],
    devices_list := fun _ =>
      [ ⟨"@u1:example.org", "D1", "aaaabbbb"⟩,
        ⟨"@u2:example.org", "D2", "ccccdddd"⟩,
        ⟨"@u1:example.org", "D3", "eeeeffff"⟩ ],
    devices_list_user_devices := fun _ _ =>
      [ ⟨"@u1:example.org", "D1", "aaaabbbb"⟩,
        ⟨"@u1:example.org", "D2", "ccccdddd"⟩ ] }

def sample_completer : PanCompleter :=
  { commands := panctl_commands, env := sample_env }

/-! ### Helper lemmas -/

lemma lookup_mem {α β : Type} [BEq α] [LawfulBEq α] {l : List (α × β)}
    {a : α} {b : β} (h : List.lookup a l = some b) : (a, b) ∈ l := by
  induction l with
  | nil => simp [List.lookup] at h
  | cons p rest ih =>
    obtain ⟨k, v⟩ := p
    rw [List.lookup] at h
    by_cases hk : (a == k) = true
    · rw [hk] at h
      obtain rfl := eq_of_beq hk
      obtain rfl : v = b := by injection h
      exact List.mem_cons_self _ _
    · rw [Bool.not_eq_true] at hk
      rw [hk] at h
      exact List.mem_cons_of_mem _ (ih h)

lemma is_help_of_not_option {w : String} (h : is_option_like w = false) :
    is_help w = false := by
  cases hb : is_help w
  · rfl
  · exfalso
    unfold is_help at hb
    rcases Bool.or_eq_true_iff.mp hb with h1 | h1
    · rw [eq_of_beq h1] at h
      exact absurd h (by decide)
    · rw [eq_of_beq h1] at h
      exact absurd h (by decide)

lemma any_eq_false_of_forall {p : String → Bool} {l : List String}
    (h : ∀ w ∈ l, p w = false) : l.any p = false := by
  induction l with
  | nil => rfl
  | cons a l ih =>
    simp only [List.any_cons, Bool.or_eq_false_iff]
    exact ⟨h a (List.mem_cons_self _ _),
      ih (fun w hw => h w (List.mem_cons_of_mem _ hw))⟩

/-- Evaluation of `parse_args` on a registered command followed by plain
(non-option-like) words: exact arity gives the bound invocation, any other
arity is an error. -/
lemma parse_args_known (name : String) (params : List String)
    (args : List String) (hfind : find_subparser name = some params)
    (hh : is_help name = false) (ho : is_option_like name = false)
    (hargs : ∀ w ∈ args, is_option_like w = false) :
    parse_args (name :: args)
      = if args.length = params.length then
          .ok ⟨name, params.zip args⟩
        else .failure := by
  have h1 : args.any is_help = false :=
    any_eq_false_of_forall (fun w hw => is_help_of_not_option (hargs w hw))
  have h2 : args.any is_option_like = false := any_eq_false_of_forall hargs
  simp [parse_args, hh, ho, hfind, h1, h2]

/-- Any successfully parsed invocation satisfies a registered command spec
exactly: its bound parameter names are the spec's, and the input line was
the command followed by exactly the bound values, in order. -/
lemma parse_args_ok_shape (argv : List String) (inv : ParsedInvocation)
    (h : parse_args argv = .ok inv) :
    ∃ spec ∈ parser_registrations,
      inv.subcommand = spec.1
      ∧ inv.bindings.map Prod.fst = spec.2
      ∧ argv = inv.subcommand :: inv.bindings.map Prod.snd := by
  match argv with
  | [] => simp [parse_args] at h
  | cmd :: rest =>
    rw [parse_args] at h
    by_cases hh : is_help cmd = true
    · simp [hh] at h
    · rw [Bool.not_eq_true] at hh
      rw [hh] at h
      simp only [Bool.false_eq_true, if_false] at h
      by_cases ho : is_option_like cmd = true
      · simp [ho] at h
      · rw [Bool.not_eq_true] at ho
        rw [ho] at h
        simp only [Bool.false_eq_true, if_false] at h
        cases hfind : find_subparser cmd with
        | none => rw [hfind] at h; simp at h
        | some params =>
          rw [hfind] at h
          by_cases hah : rest.any is_help = true
          · simp [hah] at h
          · rw [Bool.not_eq_true] at hah
            rw [hah] at h
            simp only [Bool.false_eq_true, if_false] at h
            by_cases hao : rest.any is_option_like = true
            · simp [hao] at h
            · rw [Bool.not_eq_true] at hao
              rw [hao] at h
              simp only [Bool.false_eq_true, if_false] at h
              by_cases hlen : rest.length = params.length
              · rw [if_pos hlen] at h
                obtain rfl : (⟨cmd, params.zip rest⟩ : ParsedInvocation) = inv := by
                  injection h
                refine ⟨(cmd, params), ?_, rfl, ?_, ?_⟩
                · exact List.mem_reverse.mp (lookup_mem hfind)
                · exact List.map_fst_zip params rest (le_of_eq hlen.symm)
                · have := List.map_snd_zip params rest (le_of_eq hlen)
                  simp only [this]
              · rw [if_neg hlen] at h
                simp at h

lemma filter_words_eq_filter (ws : List String) (lw : String) :
    filter_words ws lw = ws.filter (fun w => str_in lw w) := by
  suffices h : ∀ acc : List String,
      ws.foldl (fun acc w => if str_in lw w then acc ++ [w] else acc) acc
        = acc ++ ws.filter (fun w => str_in lw w) by
    simpa [filter_words] using h []
  induction ws with
  | nil => intro acc; simp
  | cons w ws ih =>
    intro acc
    rw [List.foldl_cons, List.filter_cons]
    by_cases hw : str_in lw w = true
    · rw [if_pos hw, if_pos hw, ih]
      simp
    · rw [if_neg hw, if_neg hw, ih]

lemma mem_yield_filter {pool : List String} {lw : String} {c : Completion} :
    c ∈ yield_completions (filter_words pool lw) lw
      ↔ ∃ u ∈ pool, str_in lw u = true ∧ c = ⟨u, -(lw.length : Int)⟩ := by
  rw [yield_completions, filter_words_eq_filter]
  simp only [List.mem_map, List.mem_filter]
  constructor
  · rintro ⟨u, ⟨hu, hin⟩, rfl⟩
    exact ⟨u, hu, hin, rfl⟩
  · rintro ⟨u, hu, hin, rfl⟩
    exact ⟨u, ⟨hu, hin⟩, rfl⟩

lemma split_sp_chars_length_pos : ∀ (cs acc : List Char),
    1 ≤ (split_sp_chars cs acc).length := by
  intro cs
  induction cs with
  | nil => intro acc; simp [split_sp_chars]
  | cons c cs ih =>
    intro acc
    rw [split_sp_chars]
    by_cases hc : (c == ' ') = true
    · rw [if_pos hc]
      simp
    · rw [if_neg hc]
      exact ih _

lemma split_sp_chars_of_no_space : ∀ (cs acc : List Char), ' ' ∉ cs →
    split_sp_chars cs acc = [String.mk (acc.reverse ++ cs)] := by
  intro cs
  induction cs with
  | nil => intro acc _; simp [split_sp_chars]
  | cons c cs ih =>
    intro acc h
    have hc : (c == ' ') = false := by
      rcases Bool.eq_false_or_eq_true (c == ' ') with h1 | h1
      · exfalso
        rw [eq_of_beq h1] at h
        exact h (List.mem_cons_self ' ' cs)
      · exact h1
    rw [split_sp_chars, hc]
    simp only [Bool.false_eq_true, if_false]
    rw [ih (c :: acc) (fun hmem => h (List.mem_cons_of_mem c hmem))]
    simp

lemma split_sp_chars_of_space : ∀ (cs acc : List Char), ' ' ∈ cs →
    2 ≤ (split_sp_chars cs acc).length := by
  intro cs
  induction cs with
  | nil => intro acc h; simp at h
  | cons c cs ih =>
    intro acc h
    rw [split_sp_chars]
    by_cases hc : (c == ' ') = true
    · rw [if_pos hc]
      have := split_sp_chars_length_pos cs []
      simp only [List.length_cons]
      omega
    · rw [if_neg hc]
      have hmem : ' ' ∈ cs := by
        rcases List.mem_cons.mp h with h1 | h1
        · exact absurd (beq_iff_eq.mpr h1.symm) hc
        · exact h1
      exact ih (c :: acc) hmem

/-- A buffer consisting of a single word (no space) splits to exactly that
word. -/
lemma split_sp_eq_self {text : String} (h : (split_sp text).length = 1) :
    split_sp text = [text] := by
  obtain ⟨l⟩ := text
  have htl : (String.mk l).toList = l := rfl
  rw [split_sp, htl] at h ⊢
  by_cases hsp : ' ' ∈ l
  · have := split_sp_chars_of_space l [] hsp
    omega
  · rw [split_sp_chars_of_no_space l [] hsp]
    simp

lemma grouper4_ne_nil (fill : Char) (l : List Char) (h : l ≠ []) :
    grouper4 fill l ≠ [] := by
  match l with
  | [] => exact absurd rfl h
  | [a] => simp [grouper4]
  | [a, b] => simp [grouper4]
  | [a, b, c] => simp [grouper4]
  | a :: b :: c :: d :: rest => simp [grouper4]

/-- The space-joined groups of a nonempty string have length `5 * g - 1`
for `g` groups of 4, i.e. length `≡ 4 (mod 5)`. -/
lemma joinSp_grouper4_mod5 (fill : Char) :
    ∀ (n : Nat) (l : List Char), l.length ≤ n → l ≠ [] →
      (joinSp (grouper4 fill l)).length % 5 = 4
  | 0, l, hl, hne =>
    absurd (List.length_eq_zero.mp (Nat.le_zero.mp hl)) hne
  | _ + 1, [], _, hne => absurd rfl hne
  | _ + 1, [a], _, _ => by simp [grouper4, joinSp]
  | _ + 1, [a, b], _, _ => by simp [grouper4, joinSp]
  | _ + 1, [a, b, c], _, _ => by simp [grouper4, joinSp]
  | _ + 1, [a, b, c, d], _, _ => by simp [grouper4, joinSp]
  | n + 1, a :: b :: c :: d :: x :: xs, hl, _ => by
    have hxs : (x :: xs).length ≤ n := by
      simp only [List.length_cons] at hl ⊢
      omega
    have ih := joinSp_grouper4_mod5 fill n (x :: xs) hxs (by simp)
    obtain ⟨g, G, hG⟩ : ∃ g G, grouper4 fill (x :: xs) = g :: G := by
      cases hx : grouper4 fill (x :: xs) with
      | nil => exact absurd hx (grouper4_ne_nil fill _ (by simp))
      | cons g G => exact ⟨g, G, rfl⟩
    rw [show grouper4 fill (a :: b :: c :: d :: x :: xs)
          = [a, b, c, d] :: grouper4 fill (x :: xs) from rfl,
        hG]
    rw [hG] at ih
    have hjoin : joinSp ([a, b, c, d] :: g :: G)
        = [a, b, c, d] ++ ' ' :: joinSp (g :: G) := rfl
    rw [hjoin]
    simp only [List.length_append, List.length_cons, List.length_nil]
    omega

/-! ### Claims -/

/-- C1: the spec's grammar accepts the verb `unverify-device` with three
positionals `(pan_user, user_id, device_id)`.  The source intends this —
its command list, and its completer's verification family, both advertise
`unverify-device` — but `PanctlParser.__init__` registers the sub-parser
built for it (local variable `unverify`, line 74) under the name
`"verify-device"`, a second registration of that name, so the parser has
no `unverify-device` choice and rejects the line instead of binding a
`ParsedInvocation`. -/
theorem C1_unverify_device_rejected :
    find_subparser "unverify-device" = none
    ∧ parse_args ["unverify-device", "alice", "@bob:example.org", "AAAABBBB"]
        = .failure
    ∧ "unverify-device" ∈ panctl_commands
    ∧ "unverify-device" ∈ verification_command_names
    ∧ (parser_registrations.map Prod.fst).count "verify-device" = 2 := by
  decide

/-- C2 counterexample: at the concrete input `""` the code returns
`colors[5381 % 5] = "ansigreen"`, while reduction "modulo the fixed
palette of 6 named colors", as the claim states, would give
`colors[5381 % 6] = "ansimagenta"`; moreover the sixth palette entry can
never be the code's result, so not every palette entry is reachable. -/
theorem C2_counterexample :
    get_color "" = "ansigreen"
    ∧ get_color_spec "" = "ansimagenta"
    ∧ get_color "" ≠ get_color_spec "" := by
  refine ⟨rfl, rfl, ?_⟩
  decide

/-- C2 (amended): color assignment is a pure deterministic function of the
input string: it computes the djb2 rolling hash and reduces it modulo 5,
so every result is one of the first 5 of the 6 palette entries, each of
those 5 is reachable, the sixth entry `"ansimagenta"` is never returned,
and the result is a pure function of the input string (repeated calls on
the same string trivially return the same entry in this embedding). -/
theorem C2_color_amended :
    (∀ s : String,
       get_color s ∈ ["ansiblue", "ansigreen", "ansired", "ansiyellow",
         "ansicyan"])
    ∧ get_color "a" = "ansiblue"
    ∧ get_color "" = "ansigreen"
    ∧ get_color "c" = "ansired"
    ∧ get_color "d" = "ansiyellow"
    ∧ get_color "e" = "ansicyan"
    ∧ (∀ s : String, get_color s ≠ "ansimagenta")
    ∧ (∀ s : String, get_color s = get_color s) := by
  have key : ∀ k : Nat, k < 5 →
      colors.getD k "" ∈ ["ansiblue", "ansigreen", "ansired", "ansiyellow",
        "ansicyan"] ∧ colors.getD k "" ≠ "ansimagenta" := by
    intro k hk
    interval_cases k <;> exact ⟨by decide, by decide⟩
  have hlt : ∀ s : String, djb2 s % 5 < 5 :=
    fun s => Nat.mod_lt _ (by norm_num)
  refine ⟨fun s => (key _ (hlt s)).1, rfl, rfl, rfl, rfl, rfl,
    fun s => (key _ (hlt s)).2, fun s => rfl⟩

/-- C7 counterexample: at the empty input string the output is empty, of
length 0, which is not of the form `5 * g - 1` (equivalently, not `≡ 4`
modulo 5), so the claimed length property does not hold for *every* input
string. -/
theorem C7_counterexample :
    partition_key "" = ""
    ∧ (partition_key "").length = 0
    ∧ (partition_key "").length % 5 ≠ 4 := by
  refine ⟨rfl, rfl, ?_⟩
  decide

/-- C7 (amended): key partitioning groups the fingerprint string into
chunks of 4 characters joined by single spaces, padding the final group
with spaces; for every *nonempty* input string the output length is a
multiple of 5 minus 1 (length `≡ 4 (mod 5)`); in particular
`partition_key "abcdefgh" = "abcd efgh"` and
`partition_key "abcdefg" = "abcd efg "`. -/
theorem C7_partition_amended :
    (∀ s : String, s ≠ "" → (partition_key s).length % 5 = 4)
    ∧ partition_key "abcdefgh" = "abcd efgh"
    ∧ partition_key "abcdefg" = "abcd efg " := by
  refine ⟨?_, by decide, by decide⟩
  intro s hs
  obtain ⟨l⟩ := s
  have hl : l ≠ [] := by
    intro h
    rw [h] at hs
    exact hs rfl
  exact joinSp_grouper4_mod5 ' ' l.length l le_rfl hl

theorem C7_witness :
    (partition_key "xy").length % 5 = 4 :=
  C7_partition_amended.1 "xy" (by decide)

/-- C3: for every verb registered in the grammar, and positional words
(tokens argparse does not treat as options), parsing succeeds exactly when
the word count equals the verb's declared parameter count, binding the
parameters to the words in order; any other count is a parse failure; and
every `ParsedInvocation` ever produced satisfies some registered command
spec exactly, with no partial or excess arguments. -/
theorem C3_arity (name : String) (params : List String) (args : List String)
    (hreg : (name, params) ∈ parser_registrations)
    (hargs : ∀ w ∈ args, is_option_like w = false) :
    (parse_args (name :: args) = .ok ⟨name, params.zip args⟩
       ↔ args.length = params.length)
    ∧ (args.length ≠ params.length → parse_args (name :: args) = .failure)
    ∧ (∀ (argv : List String) (inv : ParsedInvocation),
         parse_args argv = .ok inv →
         ∃ spec ∈ parser_registrations,
           inv.subcommand = spec.1
           ∧ inv.bindings.map Prod.fst = spec.2
           ∧ argv = inv.subcommand :: inv.bindings.map Prod.snd) := by
  have hfind : find_subparser name = some params := by
    fin_cases hreg <;> decide
  have hh : is_help name = false := by
    fin_cases hreg <;> decide
  have ho : is_option_like name = false := by
    fin_cases hreg <;> decide
  have hmain := parse_args_known name params args hfind hh ho hargs
  refine ⟨⟨?_, ?_⟩, ?_, parse_args_ok_shape⟩
  · intro hok
    by_contra hne
    rw [hmain, if_neg hne] at hok
    simp at hok
  · intro hlen
    rw [hmain, if_pos hlen]
  · intro hne
    rw [hmain, if_neg hne]

theorem C3_witness :
    parse_args ["list-devices", "alice", "@bob:example.org"]
      = .ok ⟨"list-devices",
          [("pan_user", "alice"), ("user_id", "@bob:example.org")]⟩
    ∧ parse_args ["list-devices", "alice"] = .failure := by
  have h := C3_arity "list-devices" ["pan_user", "user_id"]
    ["alice", "@bob:example.org"] (by decide) (by decide)
  have h2 := C3_arity "list-devices" ["pan_user", "user_id"] ["alice"]
    (by decide) (by decide)
  exact ⟨h.1.mpr rfl, h2.2.1 (by decide)⟩

/-- C4 counterexample: the line `-h` has a first token that is not a known
command name, yet parsing does not yield a `ParseFailure`: argparse's
default help action fires, printing help and terminating the process via
`sys.exit(0)` (the overridden methods are `error` and `print_usage`, not
`exit` or the help action), so the loop does not survive to the next
prompt. -/
theorem C4_counterexample :
    "-h" ∉ parser_registrations.map Prod.fst
    ∧ parse_args ["-h"] = .helpExit
    ∧ parse_args ["-h"] ≠ .failure
    ∧ loop_step "-h" = { rpc := [], output := [.helpText], next := .exited 0 }
    ∧ (loop_step "-h").next ≠ .prompt := by
  decide

/-- C4 (amended): for every input line whose first token is not a known
command name *and is not an option-like token* (does not begin with `-`,
excluding argparse's built-in help flags), parsing yields a `ParseFailure`
reported inline to the operator, and the REPL loop continues to the next
prompt; such a parse error never terminates the process. -/
theorem C4_unknown_command_amended (line : String)
    (hne : py_split line ≠ [])
    (hopt : is_option_like ((py_split line).headD "") = false)
    (hunknown : find_subparser ((py_split line).headD "") = none) :
    parse_args (py_split line) = .failure
    ∧ loop_step line = { rpc := [], output := [.parseError], next := .prompt }
    := by
  obtain ⟨cmd, rest, hsplit⟩ := List.exists_cons_of_ne_nil hne
  rw [hsplit] at hopt hunknown
  simp only [List.headD_cons] at hopt hunknown
  have hh : is_help cmd = false := is_help_of_not_option hopt
  have hfail : parse_args (py_split line) = .failure := by
    rw [hsplit]
    simp [parse_args, hh, hopt, hunknown]
  have hline : line ≠ "" := by
    intro h0
    rw [h0] at hsplit
    exact List.noConfusion (show ([] : List String) = cmd :: rest from hsplit)
  refine ⟨hfail, ?_⟩
  unfold loop_step
  rw [if_neg hline, hfail]

theorem C4_witness :
    parse_args (py_split "frobnicate foo") = .failure
    ∧ loop_step "frobnicate foo"
        = { rpc := [], output := [.parseError], next := .prompt } :=
  C4_unknown_command_amended "frobnicate foo" (by decide) (by decide)
    (by decide)

/-- C8: dispatching a successfully parsed `accept-verification` invocation
is the literal `pass` branch of the loop: it issues no Remote Control
Client call, prints nothing, and the loop (which carries no state between
iterations) returns to the prompt. -/
theorem C8_accept_verification_noop (line u v d : String)
    (hsplit : py_split line = ["accept-verification", u, v, d])
    (hu : is_option_like u = false) (hv : is_option_like v = false)
    (hd : is_option_like d = false) :
    parse_args (py_split line)
      = .ok ⟨"accept-verification",
          [("pan_user", u), ("user_id", v), ("device_id", d)]⟩
    ∧ loop_step line = { rpc := [], output := [], next := .prompt } := by
  have hargs : ∀ w ∈ [u, v, d], is_option_like w = false := by
    intro w hw
    simp only [List.mem_cons, List.not_mem_nil, or_false] at hw
    rcases hw with rfl | rfl | rfl <;> assumption
  have hok : parse_args ["accept-verification", u, v, d]
      = .ok ⟨"accept-verification",
          [("pan_user", u), ("user_id", v), ("device_id", d)]⟩ := by
    rw [parse_args_known "accept-verification"
      ["pan_user", "user_id", "device_id"] [u, v, d] (by decide) (by decide)
      (by decide) hargs]
    rfl
  have hline : line ≠ "" := by
    intro h0
    rw [h0] at hsplit
    exact List.noConfusion
      (show ([] : List String) = ["accept-verification", u, v, d] from hsplit)
  refine ⟨by rw [hsplit]; exact hok, ?_⟩
  unfold loop_step
  rw [if_neg hline, hsplit, hok]
  rfl

theorem C8_witness :
    loop_step "accept-verification alice @bob:example.org DEVID"
      = { rpc := [], output := [], next := .prompt } :=
  (C8_accept_verification_noop "accept-verification alice @bob:example.org DEVID"
    "alice" "@bob:example.org" "DEVID" (by decide) (by decide) (by decide)
    (by decide)).2

lemma mem_device_owner_ids {env : DaemonEnv} {pan_user u : String} :
    u ∈ device_owner_ids env pan_user
      ↔ ∃ dev ∈ env.devices_list pan_user, dev.user_id = u := by
  rw [device_owner_ids, List.mem_dedup, List.mem_map]

/-- `complete_verification` ignores its `command` argument and reads only
the length and the tail of `words`, so the head word is irrelevant. -/
lemma complete_verification_head_irrel (env : DaemonEnv)
    (cmd1 cmd2 lw x1 x2 : String) (t : List String) :
    complete_verification env cmd1 lw (x1 :: t)
      = complete_verification env cmd2 lw (x2 :: t) := by
  simp [complete_verification, List.getD_cons_succ]

/-- C5: for verification-family verbs, completion is classified by word
index: with the last word as target, two words (target at word-index 1)
complete against the daemon's pan-users, three words (index 2) against
device-owning user ids scoped to the `pan_user` typed at word 1, four
words (index 3) against device ids scoped to the `(pan_user, user_id)`
pair typed at words 1 and 2, and any later word index yields no
candidates.  Each candidate pool is given both as the model's list and as
an order-independent membership characterisation. -/
theorem C5_verification_completion (env : DaemonEnv) (command : String)
    (words : List String) :
    (words.length = 2 →
       complete_verification env command (words.getLastD "") words
         = complete_pan_users env (words.getLastD "")
       ∧ ∀ c : Completion,
           c ∈ complete_verification env command (words.getLastD "") words
           ↔ ∃ u ∈ pan_user_names env,
               str_in (words.getLastD "") u = true
               ∧ c = ⟨u, -(((words.getLastD "").length : Int))⟩)
    ∧ (words.length = 3 →
       complete_verification env command (words.getLastD "") words
         = complete_users env (words.getLastD "") (words.getD 1 "")
       ∧ ∀ c : Completion,
           c ∈ complete_verification env command (words.getLastD "") words
           ↔ ∃ u, (∃ dev ∈ env.devices_list (words.getD 1 ""),
                     dev.user_id = u)
               ∧ str_in (words.getLastD "") u = true
               ∧ c = ⟨u, -(((words.getLastD "").length : Int))⟩)
    ∧ (words.length = 4 →
       complete_verification env command (words.getLastD "") words
         = complete_devices env (words.getLastD "") (words.getD 1 "")
             (words.getD 2 "")
       ∧ ∀ c : Completion,
           c ∈ complete_verification env command (words.getLastD "") words
           ↔ ∃ u ∈ device_ids env (words.getD 1 "") (words.getD 2 ""),
               str_in (words.getLastD "") u = true
               ∧ c = ⟨u, -(((words.getLastD "").length : Int))⟩)
    ∧ (5 ≤ words.length →
       complete_verification env command (words.getLastD "") words = []) := by
  refine ⟨?_, ?_, ?_, ?_⟩
  · intro h2
    have he : complete_verification env command (words.getLastD "") words
        = complete_pan_users env (words.getLastD "") := by
      rw [complete_verification, if_pos h2]
    refine ⟨he, fun c => ?_⟩
    rw [he, complete_pan_users]
    exact mem_yield_filter
  · intro h3
    have he : complete_verification env command (words.getLastD "") words
        = complete_users env (words.getLastD "") (words.getD 1 "") := by
      rw [complete_verification, if_neg (by omega), if_pos h3]
    refine ⟨he, fun c => ?_⟩
    rw [he, complete_users, mem_yield_filter]
    constructor
    · rintro ⟨u, hu, hin, rfl⟩
      exact ⟨u, mem_device_owner_ids.mp hu, hin, rfl⟩
    · rintro ⟨u, hu, hin, rfl⟩
      exact ⟨u, mem_device_owner_ids.mpr hu, hin, rfl⟩
  · intro h4
    have he : complete_verification env command (words.getLastD "") words
        = complete_devices env (words.getLastD "") (words.getD 1 "")
            (words.getD 2 "") := by
      rw [complete_verification, if_neg (by omega), if_neg (by omega),
        if_pos h4]
    refine ⟨he, fun c => ?_⟩
    rw [he, complete_devices]
    exact mem_yield_filter
  · intro h5
    rw [complete_verification, if_neg (by omega), if_neg (by omega),
      if_neg (by omega)]

theorem C5_witness :
    complete_verification sample_env "verify-device" "al"
        ["verify-device", "al"]
      = complete_pan_users sample_env "al"
    ∧ complete_verification sample_env "verify-device" "D"
        ["verify-device", "alice", "@u1:example.org", "D"]
      = complete_devices sample_env "D" "alice" "@u1:example.org"
    ∧ complete_verification sample_env "verify-device" "x"
        ["verify-device", "a", "b", "c", "x"] = [] := by
  refine ⟨?_, ?_, ?_⟩
  · exact (C5_verification_completion sample_env "verify-device"
      ["verify-device", "al"] |>.1 rfl).1
  · exact (C5_verification_completion sample_env "verify-device"
      ["verify-device", "alice", "@u1:example.org", "D"] |>.2.2.1 rfl).1
  · exact C5_verification_completion sample_env "verify-device"
      ["verify-device", "a", "b", "c", "x"] |>.2.2.2 (by decide)

/-- C6: when the buffer before the cursor is a single word, the candidates
are exactly the grammar's command names filtered by case-sensitive
substring containment of the target word, and every returned candidate's
replacement span is the full target word. -/
theorem C6_single_word_completion (c : PanCompleter) (text : String)
    (h : (split_sp text).length = 1) :
    get_completions c text
      = .completions ((c.commands.filter (fun w => str_in text w)).map
          (fun w => ⟨w, -(text.length : Int)⟩))
    ∧ ∀ cand ∈ (c.commands.filter (fun w => str_in text w)).map
          (fun w => Completion.mk w (-(text.length : Int))),
        cand.start_position = -(text.length : Int) := by
  have hsp := split_sp_eq_self h
  constructor
  · rw [get_completions, hsp]
    simp [get_completions_words, complete_commands, yield_completions,
      filter_words_eq_filter]
  · intro cand hc
    simp only [List.mem_map] at hc
    obtain ⟨w, _, rfl⟩ := hc
    rfl

theorem C6_witness :
    get_completions sample_completer "dev"
      = .completions
          [ ⟨"list-devices", -3⟩,
            ⟨"verify-device", -3⟩,
            ⟨"unverify-device", -3⟩ ] := by
  rw [(C6_single_word_completion sample_completer "dev" (by decide)).1]
  decide

/-- Routing of `get_completions` for a verification-family first word with
at least one further word. -/
lemma get_completions_words_verification (c : PanCompleter) (cmd r : String)
    (rs : List String) (hcmd : cmd ∈ verification_command_names) :
    get_completions_words c (cmd :: r :: rs)
      = .completions (complete_verification c.env cmd (rs.getLastD r)
          (cmd :: r :: rs)) := by
  simp only [get_completions_words, List.length_cons, List.getLastD_cons,
    List.headD_cons]
  rw [if_neg (by omega : ¬rs.length + 1 + 1 = 1), if_pos hcmd]

/-- C10: the completion engine classifies `cancel-verification` as a
verification-family verb and completes its arguments exactly like the
other verification verbs, although `cancel-verification` is absent from
the command list offered at word-index 0 and is rejected as an unknown
command by the parser. -/
theorem C10_cancel_verification :
    (∀ (c : PanCompleter) (rest : List String), rest ≠ [] →
       get_completions_words c ("cancel-verification" :: rest)
         = .completions (complete_verification c.env "cancel-verification"
             (rest.getLastD "") ("cancel-verification" :: rest))
       ∧ get_completions_words c ("cancel-verification" :: rest)
         = get_completions_words c ("start-verification" :: rest))
    ∧ "cancel-verification" ∉ panctl_commands
    ∧ (∀ args : List String,
         parse_args ("cancel-verification" :: args) = .failure) := by
  refine ⟨?_, by decide, ?_⟩
  · intro c rest hrest
    obtain ⟨r, rs, rfl⟩ := List.exists_cons_of_ne_nil hrest
    constructor
    · rw [show (r :: rs).getLastD "" = rs.getLastD r from
        List.getLastD_cons "" r rs]
      exact get_completions_words_verification c "cancel-verification" r rs
        (by decide)
    · rw [get_completions_words_verification c "cancel-verification" r rs
          (by decide),
        get_completions_words_verification c "start-verification" r rs
          (by decide)]
      exact congrArg _ (complete_verification_head_irrel c.env
        "cancel-verification" "start-verification" (rs.getLastD r)
        "cancel-verification" "start-verification" (r :: rs))
  · intro args
    simp [parse_args,
      show is_help "cancel-verification" = false from by decide,
      show is_option_like "cancel-verification" = false from by decide,
      show find_subparser "cancel-verification" = none from by decide]

theorem C10_witness :
    get_completions_words sample_completer ["cancel-verification", "al"]
      = get_completions_words sample_completer ["start-verification", "al"]
    ∧ "cancel-verification" ∉ panctl_commands
    ∧ parse_args ["cancel-verification", "alice", "@u1:example.org", "D1"]
        = .failure := by
  have h := C10_cancel_verification
  exact ⟨(h.1 sample_completer ["al"] (by decide)).2, h.2.1,
    h.2.2 ["alice", "@u1:example.org", "D1"]⟩

/-- C9 counterexample: on startup connection failure the diagnostic is
written by Python's `print`, which writes to standard output, not to
standard error; nothing is written to standard error. -/
theorem C9_counterexample :
    (main_startup false).stderr = []
    ∧ (main_startup false).stdout = ["Error, no pantalaimon bus found"] :=
  ⟨rfl, rfl⟩

/-- C9 (amended): if the daemon's control surface cannot be located at
startup, the process prints a diagnostic message to standard output,
exits with a non-zero status (`sys.exit(-1)`), and never shows a
prompt. -/
theorem C9_startup_failure_amended :
    main_startup false
      = { stdout := ["Error, no pantalaimon bus found"], stderr := [],
          exit_code := some (-1), prompt_shown := false }
    ∧ (main_startup false).exit_code ≠ some 0
    ∧ (main_startup false).prompt_shown = false := by
  refine ⟨rfl, ?_, rfl⟩
  decide

end Panctl
